import Mathlib

/-!
Verification of the Zone-Insight geospatial resolution engine.

Shallow embedding of the TypeScript sources:
  * `src/App.tsx` — `parseWKT`
  * `src/services/api.ts` — `searchAddress`, `searchZones`, `searchAdminDistrict`,
    `fetchLocalAdminPolygon` (both the local-shapefile variant and the SGIS
    statistics-service variant), `fetchStores`, `fetchStoresInAdmin`.

Strings are embedded as `List Char`; JavaScript numbers as `ℚ` (the parsing and
branching logic under verification never depends on floating-point rounding);
fallible/async operations are embedded as `Except`-valued functions over an
explicit environment that records the upstream responses.
-/

/-! ## Shared string utilities (JS `String.prototype` operations) -/

/-- JS whitespace test used by `trim` and `\s`; the tokens handled by the code
only contain these whitespace characters. -/
def isWs (c : Char) : Bool :=
  c = ' ' || c = '\t' || c = '\n' || c = '\r'

/-- JS `String.prototype.trim`. -/
def jsTrim (s : List Char) : List Char :=
  ((s.dropWhile isWs).reverse.dropWhile isWs).reverse

/-- Lower-case an ASCII letter (for the case-insensitive `/^POLYGON\s*/i`). -/
def lowerAscii (c : Char) : Char :=
  if 'A' ≤ c ∧ c ≤ 'Z' then Char.ofNat (c.toNat + 32) else c

/-- Maximal runs of non-whitespace characters. -/
def wsWords : List Char → List (List Char)
  | [] => []
  | c :: rest =>
    if isWs c then wsWords rest
    else
      match wsWords rest with
      | [] => [[c]]
      | h :: t =>
        match rest with
        | [] => [[c]]
        | r :: _ => if isWs r then [c] :: h :: t else (c :: h) :: t

/-- JS `s.split(/\s+/)` applied to an already-trimmed string: the whitespace
runs separate the words; the empty string yields `[""]`. -/
def splitWsRuns (s : List Char) : List (List Char) :=
  if s.isEmpty then [[]] else wsWords s

/-! ## `parseWKT` (src/App.tsx lines 29–51) -/

/-- `wkt.replace(/^POLYGON\s*/i, '')`: drop a case-insensitive `POLYGON`
keyword and the whitespace after it, if the string starts with it. -/
def stripPolygonKeyword (s : List Char) : List Char :=
  if (s.take 7).map lowerAscii = String.toList "polygon" then
    (s.drop 7).dropWhile isWs
  else s

/-- Scanner for the global regex `\([^()]+\)`: `acc?` is `some acc` while a
candidate match opened by `(` is being collected (collected chars reversed in
`acc`).  Emits each matched substring (parentheses included). -/
def scanParenGroups : List Char → Option (List Char) → List (List Char)
  | [], _ => []
  | c :: rest, none =>
    if c = '(' then scanParenGroups rest (some [])
    else scanParenGroups rest none
  | c :: rest, some acc =>
    if c = ')' then
      if acc.isEmpty then scanParenGroups rest none
      else ('(' :: acc.reverse ++ [')']) :: scanParenGroups rest none
    else if c = '(' then scanParenGroups rest (some [])
    else scanParenGroups rest (some (c :: acc))

/-- `cleanWkt.match(/\([^()]+\)/g)`; the JS call returns `null` when there is
no match, embedded here as the empty list. -/
def matchParenGroups (s : List Char) : List (List Char) :=
  scanParenGroups s none

/-- Numeric value of a digit string (most significant first). -/
def digitsToNat (ds : List Char) : Nat :=
  ds.foldl (fun acc c => acc * 10 + (c.toNat - 48)) 0

/-- Exponent part after `e`/`E`: optional sign then digits; `none` when no
digit follows (JS `parseFloat` then keeps only the mantissa prefix). -/
def parseExpDigits (s : List Char) : Option Int :=
  let (eneg, s1) :=
    match s with
    | '-' :: r => (true, r)
    | '+' :: r => (false, r)
    | _ => (false, s)
  let ds := s1.takeWhile Char.isDigit
  if ds.isEmpty then none
  else some (if eneg then -(digitsToNat ds : Int) else (digitsToNat ds : Int))

/-- The exact rational value of the decimal literal
`[-] ip . fp e E` (integer digits `ip`, fraction digits `fp`, exponent `e`),
built with the kernel-friendly `mkRat`. -/
def decimalValue (neg : Bool) (ip fp : List Char) (e : Int) : ℚ :=
  let base : Int := (digitsToNat ip * 10 ^ fp.length + digitsToNat fp : Nat)
  let base : Int := if neg then -base else base
  if 0 ≤ e then mkRat (base * 10 ^ e.toNat) (10 ^ fp.length)
  else mkRat base (10 ^ fp.length * 10 ^ (-e).toNat)

/-- JS `parseFloat` composed with the `Number.isFinite` check of `parseWKT`:
`some q` when the token has a finite numeric prefix (value `q` as a rational),
`none` when `parseFloat` yields `NaN` or `±Infinity`.  JS float values are
abstracted as exact rationals. -/
def parseFiniteFloat (s : List Char) : Option ℚ :=
  let (neg, s1) :=
    match s with
    | '-' :: r => (true, r)
    | '+' :: r => (false, r)
    | _ => (false, s)
  if s1.take 8 = String.toList "Infinity" then none
  else
    let ip := s1.takeWhile Char.isDigit
    let s2 := s1.dropWhile Char.isDigit
    let (fp, s3) :=
      match s2 with
      | '.' :: r => (r.takeWhile Char.isDigit, r.dropWhile Char.isDigit)
      | _ => ([], s2)
    if ip.isEmpty ∧ fp.isEmpty then none
    else
      match s3 with
      | 'e' :: r =>
        match parseExpDigits r with
        | some e => some (decimalValue neg ip fp e)
        | none => some (decimalValue neg ip fp 0)
      | 'E' :: r =>
        match parseExpDigits r with
        | some e => some (decimalValue neg ip fp e)
        | none => some (decimalValue neg ip fp 0)
      | _ => some (decimalValue neg ip fp 0)

/-- One point token of a ring: `p.trim().split(/\s+/)`, two finite floats
parsed as `[lon, lat]` and swapped to `[lat, lon]`, `none` otherwise. -/
def parsePoint (p : List Char) : Option (ℚ × ℚ) :=
  match splitWsRuns (jsTrim p) with
  | p0 :: p1 :: _ =>
    match parseFiniteFloat p0, parseFiniteFloat p1 with
    | some lon, some lat => some (lat, lon)
    | _, _ => none
  | _ => none

/-- `ringStr.replace(/[()]/g, '')` keeps exactly the non-parenthesis chars. -/
def notParen (c : Char) : Bool :=
  ¬(c = '(' ∨ c = ')')

/-- `parseWKT` from src/App.tsx: strip the `POLYGON` keyword, match the
parenthesized ring groups, split each ring on commas (`List.splitOn` has JS
`split` semantics for a single-character separator), parse each point and
drop the malformed ones (`filter ≠ null`). -/
def parseWKT (wkt : List Char) : List (List (ℚ × ℚ)) :=
  if wkt.isEmpty then []
  else
    let cleanWkt := jsTrim (stripPolygonKeyword wkt)
    let rings := matchParenGroups cleanWkt
    if rings.isEmpty then []
    else
      rings.map fun ringStr =>
        let content := ringStr.filter notParen
        let points := content.splitOn ','
        (points.map parsePoint).filterMap id

/-- A parenthesized group `(…)`. -/
def wrapParens (c : List Char) : List Char :=
  '(' :: c ++ [')']

/-- Serialization of a WKT polygon from its point tokens:
`POLYGON((t11,t12,…),(t21,…),…)`.  This characterizes the "WKT polygon
string" inputs quantified over by the specification. -/
def renderWKT (rings : List (List (List Char))) : List Char :=
  String.toList "POLYGON" ++
    '(' :: ([','].intercalate (rings.map fun r => wrapParens ([','].intercalate r)) ++ [')'])

/-- A usable point token: nonempty and free of the WKT structural characters. -/
def validToken (t : List Char) : Prop :=
  t ≠ [] ∧ '(' ∉ t ∧ ')' ∉ t ∧ ',' ∉ t

instance (t : List Char) : Decidable (validToken t) := by
  unfold validToken; infer_instance

/-! ### Lemmas about the WKT parser -/

lemma dropWhile_cons_of_false {p : Char → Bool} {a : Char} {l : List Char}
    (h : p a = false) : (a :: l).dropWhile p = a :: l := by
  simp [List.dropWhile_cons, h]

lemma jsTrim_eq_self {l : List Char} (h1 : l ≠ [])
    (hh : isWs (l.headD ' ') = false) (hl : isWs (l.getLastD ' ') = false) :
    jsTrim l = l := by
  obtain ⟨a, t, rfl⟩ := List.exists_cons_of_ne_nil h1
  unfold jsTrim
  rw [dropWhile_cons_of_false (by simpa using hh)]
  have hrev : (a :: t).reverse ≠ [] := by simp
  obtain ⟨b, s, hb⟩ := List.exists_cons_of_ne_nil hrev
  have hblast : (a :: t).getLastD ' ' = b := by
    have h2 : (a :: t).getLast? = some b := by
      rw [← List.head?_reverse, hb]; rfl
    rw [List.getLastD_eq_getLast?, h2]; rfl
  rw [hb, dropWhile_cons_of_false (show isWs b = false from hblast ▸ hl), ← hb,
    List.reverse_reverse]

lemma scanParenGroups_through (c : List Char) (hc : '(' ∉ c ∧ ')' ∉ c) :
    ∀ (acc rest : List Char),
      scanParenGroups (c ++ ')' :: rest) (some acc) =
        if acc.reverse ++ c = [] then scanParenGroups rest none
        else ('(' :: (acc.reverse ++ c) ++ [')']) :: scanParenGroups rest none := by
  induction c with
  | nil =>
    intro acc rest
    simp only [List.nil_append, scanParenGroups, List.append_nil]
    by_cases h : acc = [] <;> simp [h]
  | cons ch c ih =>
    intro acc rest
    have hch1 : ch ≠ '(' := fun h => hc.1 (h ▸ List.mem_cons_self _ _)
    have hch2 : ch ≠ ')' := fun h => hc.2 (h ▸ List.mem_cons_self _ _)
    have hc' : '(' ∉ c ∧ ')' ∉ c :=
      ⟨fun h => hc.1 (List.mem_cons_of_mem _ h), fun h => hc.2 (List.mem_cons_of_mem _ h)⟩
    have step : scanParenGroups (ch :: (c ++ ')' :: rest)) (some acc) =
        scanParenGroups (c ++ ')' :: rest) (some (ch :: acc)) := by
      simp [scanParenGroups, hch1, hch2]
    rw [List.cons_append, step, ih hc' (ch :: acc) rest]
    have hrearr : (ch :: acc).reverse ++ c = acc.reverse ++ ch :: c := by simp
    rw [hrearr]

lemma scanParenGroups_skip {ch : Char} (h : ch ≠ '(') (rest : List Char) :
    scanParenGroups (ch :: rest) none = scanParenGroups rest none := by
  simp [scanParenGroups, h]

lemma scan_someNil_eq_none (X : List Char) :
    scanParenGroups ('(' :: X) (some []) = scanParenGroups ('(' :: X) none := by
  simp [scanParenGroups]

lemma intercalate_cons_cons (s : Char) (a b : List Char) (l : List (List Char)) :
    [s].intercalate (a :: b :: l) = a ++ s :: [s].intercalate (b :: l) := by
  simp [List.intercalate, List.intersperse]

lemma intercalate_singleton (s : Char) (a : List Char) :
    [s].intercalate [a] = a := by
  simp [List.intercalate]

lemma scanParenGroups_rings (cs : List (List Char))
    (h : ∀ c ∈ cs, c ≠ [] ∧ '(' ∉ c ∧ ')' ∉ c) (hne : cs ≠ []) :
    scanParenGroups ([','].intercalate (cs.map wrapParens) ++ [')']) none =
      cs.map wrapParens := by
  induction cs with
  | nil => exact absurd rfl hne
  | cons c cs ih =>
    obtain ⟨hcne, hcp⟩ := h c (List.mem_cons_self _ _)
    have hccond : ¬(([] : List Char).reverse ++ c = []) := by simpa using hcne
    cases cs with
    | nil =>
      rw [List.map_cons, List.map_nil, intercalate_singleton]
      have hshape : wrapParens c ++ [')'] = '(' :: (c ++ ')' :: [')']) := by
        simp [wrapParens]
      rw [hshape]
      have hopen : scanParenGroups ('(' :: (c ++ ')' :: [')'])) none =
          scanParenGroups (c ++ ')' :: [')']) (some []) := by
        simp [scanParenGroups]
      rw [hopen, scanParenGroups_through c hcp [] [')'], if_neg hccond]
      rw [scanParenGroups_skip (by decide) ([] : List Char)]
      simp [scanParenGroups, wrapParens]
    | cons c2 cs2 =>
      have h' : ∀ x ∈ c2 :: cs2, x ≠ [] ∧ '(' ∉ x ∧ ')' ∉ x := fun x hx =>
        h x (List.mem_cons_of_mem _ hx)
      have ih' := ih h' (by simp)
      have hI : [','].intercalate (List.map wrapParens (c :: c2 :: cs2)) =
          wrapParens c ++ ',' :: [','].intercalate (List.map wrapParens (c2 :: cs2)) := by
        simp only [List.map_cons, intercalate_cons_cons]
      rw [hI]
      have hshape : (wrapParens c ++ ',' :: [','].intercalate (List.map wrapParens (c2 :: cs2))) ++ [')'] =
          '(' :: (c ++ ')' :: (',' :: ([','].intercalate (List.map wrapParens (c2 :: cs2)) ++ [')']))) := by
        simp [wrapParens]
      rw [hshape]
      have hopen : scanParenGroups
          ('(' :: (c ++ ')' :: (',' :: ([','].intercalate (List.map wrapParens (c2 :: cs2)) ++ [')'])))) none =
          scanParenGroups (c ++ ')' :: (',' :: ([','].intercalate (List.map wrapParens (c2 :: cs2)) ++ [')'])))
            (some []) := by
        simp [scanParenGroups]
      rw [hopen, scanParenGroups_through c hcp [], if_neg hccond]
      rw [scanParenGroups_skip (by decide), ih']
      simp [wrapParens]

lemma mem_intercalate_comma {ch : Char} {ts : List (List Char)}
    (h : ch ∈ [','].intercalate ts) : ch = ',' ∨ ∃ t ∈ ts, ch ∈ t := by
  induction ts with
  | nil => simp [List.intercalate] at h
  | cons t ts ih =>
    cases ts with
    | nil =>
      rw [intercalate_singleton] at h
      exact Or.inr ⟨t, List.mem_cons_self _ _, h⟩
    | cons t2 ts2 =>
      rw [intercalate_cons_cons] at h
      rcases List.mem_append.mp h with h1 | h2
      · exact Or.inr ⟨t, List.mem_cons_self _ _, h1⟩
      · rcases List.mem_cons.mp h2 with h3 | h4
        · exact Or.inl h3
        · rcases ih h4 with h5 | ⟨u, hu, hcu⟩
          · exact Or.inl h5
          · exact Or.inr ⟨u, List.mem_cons_of_mem _ hu, hcu⟩

lemma intercalate_comma_ne_nil {ts : List (List Char)} (hne : ts ≠ [])
    (h : ∀ t ∈ ts, t ≠ []) : [','].intercalate ts ≠ [] := by
  cases ts with
  | nil => exact absurd rfl hne
  | cons t ts =>
    cases ts with
    | nil =>
      rw [intercalate_singleton]
      exact h t (List.mem_cons_self _ _)
    | cons t2 ts2 =>
      rw [intercalate_cons_cons]
      intro hcontra
      rcases List.append_eq_nil.mp hcontra with ⟨_, h2⟩
      exact List.cons_ne_nil _ _ h2

lemma filter_notParen_wrap {c : List Char} (hc : '(' ∉ c ∧ ')' ∉ c) :
    (wrapParens c).filter notParen = c := by
  have h3 : List.filter notParen c = c := by
    apply List.filter_eq_self.mpr
    intro ch hch
    unfold notParen
    have n1 : ch ≠ '(' := fun hx => hc.1 (hx ▸ hch)
    have n2 : ch ≠ ')' := fun hx => hc.2 (hx ▸ hch)
    simp [n1, n2]
  simp [wrapParens, List.filter_append, List.filter_cons, h3,
    (by decide : notParen '(' = false), (by decide : notParen ')' = false)]

lemma matchParenGroups_render (cs : List (List Char))
    (h : ∀ c ∈ cs, c ≠ [] ∧ '(' ∉ c ∧ ')' ∉ c) (hne : cs ≠ []) :
    matchParenGroups ('(' :: ([','].intercalate (cs.map wrapParens) ++ [')'])) =
      cs.map wrapParens := by
  obtain ⟨c, cs2, rfl⟩ := List.exists_cons_of_ne_nil hne
  have hhead : ∃ Y, [','].intercalate ((c :: cs2).map wrapParens) = '(' :: Y := by
    cases cs2 with
    | nil => exact ⟨c ++ [')'], by rw [List.map_cons, List.map_nil, intercalate_singleton]; rfl⟩
    | cons c2 cs3 =>
      refine ⟨(c ++ [')']) ++ ',' :: [','].intercalate (List.map wrapParens (c2 :: cs3)), ?_⟩
      simp only [List.map_cons, intercalate_cons_cons]
      simp [wrapParens]
  obtain ⟨Y, hY⟩ := hhead
  unfold matchParenGroups
  have h1 : scanParenGroups ('(' :: ([','].intercalate ((c :: cs2).map wrapParens) ++ [')'])) none =
      scanParenGroups ([','].intercalate ((c :: cs2).map wrapParens) ++ [')']) (some []) := by
    simp [scanParenGroups]
  rw [h1, hY, List.cons_append, scan_someNil_eq_none, ← List.cons_append, ← hY]
  exact scanParenGroups_rings _ h (by simp)

lemma stripPolygonKeyword_render (mid : List Char) :
    stripPolygonKeyword (String.toList "POLYGON" ++ '(' :: mid) = '(' :: mid := by
  unfold stripPolygonKeyword
  rw [if_pos (by rfl)]
  rfl

lemma wsWords_ws_cons {c : Char} (hc : isWs c = true) (rest : List Char) :
    wsWords (c :: rest) = wsWords rest := by
  rw [wsWords]
  simp [hc]

lemma wsWords_cons_cons {c r : Char} (t : List Char)
    (hc : isWs c = false) (hr : isWs r = false) :
    wsWords (c :: r :: t) =
      match wsWords (r :: t) with
      | [] => [[c]]
      | h :: t2 => (c :: h) :: t2 := by
  rw [wsWords]
  simp only [hc, Bool.false_eq_true, if_false, hr]

lemma wsWords_cons_ws {c r : Char} (t : List Char)
    (hc : isWs c = false) (hr : isWs r = true) :
    wsWords (c :: r :: t) =
      match wsWords (r :: t) with
      | [] => [[c]]
      | h :: t2 => [c] :: h :: t2 := by
  rw [wsWords]
  simp [hc, hr]

lemma wsWords_single : ∀ (l : List Char), (∀ ch ∈ l, isWs ch = false) → l ≠ [] →
    wsWords l = [l]
  | [], _, hne => absurd rfl hne
  | [c], h, _ => by
    rw [wsWords, wsWords]
    simp [h c (by simp)]
  | c :: r :: t, h, _ => by
    have hc : isWs c = false := h c (by simp)
    have hr : isWs r = false := h r (by simp)
    have ih : wsWords (r :: t) = [r :: t] :=
      wsWords_single (r :: t) (fun ch hch => h ch (List.mem_cons_of_mem _ hch)) (by simp)
    rw [wsWords_cons_cons t hc hr, ih]

lemma wsWords_append_space : ∀ (a b : List Char),
    (∀ ch ∈ a, isWs ch = false) → (∀ ch ∈ b, isWs ch = false) → a ≠ [] → b ≠ [] →
    wsWords (a ++ ' ' :: b) = [a, b]
  | [], _, _, _, hna, _ => absurd rfl hna
  | [c], b, ha, hb, _, hnb => by
    have h2 : wsWords b = [b] := wsWords_single b hb hnb
    have h1 : wsWords (' ' :: b) = [b] := by
      rw [wsWords_ws_cons (by decide), h2]
    have hc : isWs c = false := ha c (by simp)
    have hstep := wsWords_cons_ws (c := c) (r := ' ') b hc (by decide)
    rw [List.singleton_append, hstep, h1]
  | c :: c2 :: a2, b, ha, hb, _, hnb => by
    have hc : isWs c = false := ha c (by simp)
    have hc2 : isWs c2 = false := ha c2 (by simp)
    have ih : wsWords ((c2 :: a2) ++ ' ' :: b) = [c2 :: a2, b] :=
      wsWords_append_space (c2 :: a2) b (fun ch hch => ha ch (List.mem_cons_of_mem _ hch))
        hb (by simp) hnb
    have hstep := wsWords_cons_cons (c := c) (r := c2) (a2 ++ ' ' :: b) hc hc2
    rw [List.cons_append, List.cons_append, hstep]
    rw [List.cons_append] at ih
    rw [ih]

lemma parsePoint_two_nums {a b : List Char} {x y : ℚ}
    (hax : parseFiniteFloat a = some x) (hby : parseFiniteFloat b = some y)
    (ha : ∀ ch ∈ a, isWs ch = false) (hb : ∀ ch ∈ b, isWs ch = false)
    (hna : a ≠ []) (hnb : b ≠ []) :
    parsePoint (a ++ ' ' :: b) = some (y, x) := by
  obtain ⟨c, a0, rfl⟩ := List.exists_cons_of_ne_nil hna
  have htrim : jsTrim ((c :: a0) ++ ' ' :: b) = (c :: a0) ++ ' ' :: b := by
    apply jsTrim_eq_self (by simp)
    · simpa using ha c (by simp)
    · rcases List.eq_nil_or_concat' b with rfl | ⟨b1, bl, rfl⟩
      · exact absurd rfl hnb
      · have hshape : (c :: a0) ++ ' ' :: (b1 ++ [bl]) = ((c :: a0) ++ ' ' :: b1) ++ [bl] := by
          simp
        rw [hshape, List.getLastD_concat]
        exact hb bl (by simp)
  have hsplit : splitWsRuns ((c :: a0) ++ ' ' :: b) = [c :: a0, b] := by
    unfold splitWsRuns
    rw [if_neg (by simp)]
    exact wsWords_append_space _ _ ha hb (by simp) hnb
  unfold parsePoint
  rw [htrim, hsplit]
  simp [hax, hby]

lemma filterMap_id_length_of_isSome {α : Type} :
    ∀ {l : List (Option α)}, (∀ o ∈ l, o.isSome) → (l.filterMap id).length = l.length
  | [], _ => rfl
  | o :: t, h => by
    obtain ⟨v, rfl⟩ := Option.isSome_iff_exists.mp (h o (by simp))
    have ih := filterMap_id_length_of_isSome (fun u hu => h u (List.mem_cons_of_mem _ hu))
    simp [List.filterMap_cons, ih]

lemma parseWKT_renderWKT (rings : List (List (List Char)))
    (hne : rings ≠ []) (hval : ∀ r ∈ rings, r ≠ [] ∧ ∀ t ∈ r, validToken t) :
    parseWKT (renderWKT rings) = rings.map fun r => (r.map parsePoint).filterMap id := by
  obtain ⟨r0, rs, rfl⟩ := List.exists_cons_of_ne_nil hne
  have hcsprop : ∀ c ∈ (r0 :: rs).map fun r => [','].intercalate r,
      c ≠ [] ∧ '(' ∉ c ∧ ')' ∉ c := by
    intro c hc
    obtain ⟨r, hr, rfl⟩ := List.mem_map.mp hc
    obtain ⟨hrne, htok⟩ := hval r hr
    refine ⟨intercalate_comma_ne_nil hrne (fun t ht => (htok t ht).1), ?_, ?_⟩
    · intro hmem
      rcases mem_intercalate_comma hmem with h | ⟨t, ht, hti⟩
      · exact absurd h (by decide)
      · exact (htok t ht).2.1 hti
    · intro hmem
      rcases mem_intercalate_comma hmem with h | ⟨t, ht, hti⟩
      · exact absurd h (by decide)
      · exact (htok t ht).2.2.1 hti
  have hmm := matchParenGroups_render ((r0 :: rs).map fun r => [','].intercalate r)
    hcsprop (by simp)
  have hjt : jsTrim ('(' :: ([','].intercalate
      (((r0 :: rs).map fun r => [','].intercalate r).map wrapParens) ++ [')'])) =
      '(' :: ([','].intercalate (((r0 :: rs).map fun r => [','].intercalate r).map wrapParens) ++ [')']) := by
    apply jsTrim_eq_self (by simp)
    · rw [List.headD_cons]; decide
    · rw [show ('(' :: ([','].intercalate (((r0 :: rs).map fun r => [','].intercalate r).map wrapParens) ++ [')'])) =
        ('(' :: [','].intercalate (((r0 :: rs).map fun r => [','].intercalate r).map wrapParens)) ++ [')'] from by simp,
        List.getLastD_concat]
      decide
  have hmapmap : ((r0 :: rs).map fun r => wrapParens ([','].intercalate r)) =
      ((r0 :: rs).map fun r => [','].intercalate r).map wrapParens := by
    rw [List.map_map]; rfl
  have hstrip := stripPolygonKeyword_render
    ([','].intercalate (((r0 :: rs).map fun r => [','].intercalate r).map wrapParens) ++ [')'])
  have hie : (String.toList "POLYGON" ++
      '(' :: ([','].intercalate (((r0 :: rs).map fun r => [','].intercalate r).map wrapParens) ++ [')'])).isEmpty
      = false := rfl
  have hproc : ∀ r ∈ r0 :: rs,
      ((((wrapParens ([','].intercalate r)).filter notParen).splitOn ',').map parsePoint).filterMap id
        = (r.map parsePoint).filterMap id := by
    intro r hr
    obtain ⟨hrne, htok⟩ := hval r hr
    have hpf : '(' ∉ [','].intercalate r ∧ ')' ∉ [','].intercalate r :=
      ((hcsprop _ (List.mem_map.mpr ⟨r, hr, rfl⟩)).2)
    rw [filter_notParen_wrap hpf,
      List.splitOn_intercalate r ',' (fun t ht => (htok t ht).2.2.2) hrne]
  have hmapsne : ((((r0 :: rs).map fun r => [','].intercalate r).map wrapParens)).isEmpty = false := by
    simp
  unfold renderWKT
  rw [hmapmap]
  simp only [parseWKT, hie, Bool.false_eq_true, if_false, hstrip, hjt, hmm, hmapsne]
  rw [List.map_map, List.map_map]
  exact List.map_congr_left fun r hr => hproc r hr

/-- C1: for every WKT polygon string with at least one ring and at least three
well-formed points per ring, `parseWKT` preserves the ring count and, per ring,
the point count, with each point axis-swapped from `lon lat` text to
`[lat, lon]`; malformed point tokens are dropped from their ring without the
ring itself being removed (the ring list is a `map` over the input rings, each
output ring the sublist of successfully parsed points). -/
theorem parseWKT_ring_point_round_trip (rings : List (List (List Char)))
    (hne : rings ≠ []) (hval : ∀ r ∈ rings, 3 ≤ r.length ∧ ∀ t ∈ r, validToken t) :
    parseWKT (renderWKT rings) = rings.map (fun r => (r.map parsePoint).filterMap id)
    ∧ (parseWKT (renderWKT rings)).length = rings.length
    ∧ ((∀ r ∈ rings, ∀ t ∈ r, (parsePoint t).isSome) →
        (parseWKT (renderWKT rings)).map List.length = rings.map List.length)
    ∧ (∀ a b : List Char, ∀ x y : ℚ, parseFiniteFloat a = some x → parseFiniteFloat b = some y →
        (∀ ch ∈ a, isWs ch = false) → (∀ ch ∈ b, isWs ch = false) →
        a ≠ [] → b ≠ [] → parsePoint (a ++ ' ' :: b) = some (y, x)) := by
  have hval' : ∀ r ∈ rings, r ≠ [] ∧ ∀ t ∈ r, validToken t := by
    intro r hr
    obtain ⟨hlen, htok⟩ := hval r hr
    exact ⟨by rintro rfl; simp at hlen, htok⟩
  have hmain := parseWKT_renderWKT rings hne hval'
  refine ⟨hmain, by rw [hmain, List.length_map], ?_, ?_⟩
  · intro hws
    rw [hmain, List.map_map]
    apply List.map_congr_left
    intro r hr
    show ((r.map parsePoint).filterMap id).length = r.length
    rw [filterMap_id_length_of_isSome (by
      intro o ho
      obtain ⟨t, ht, rfl⟩ := List.mem_map.mp ho
      exact hws r hr t ht), List.length_map]
  · intro a b x y hax hby ha hb hna hnb
    exact parsePoint_two_nums hax hby ha hb hna hnb

/-- Witness for C1 at the concrete polygon
`POLYGON((126.97 37.56, 126.98 37.56, 126.98 37.57))`. -/
theorem parseWKT_ring_point_round_trip_witness :
    (parseWKT (renderWKT [[String.toList "126.97 37.56", String.toList "126.98 37.56",
      String.toList "126.98 37.57"]])).length = 1 ∧
    parsePoint (String.toList "1.5" ++ ' ' :: String.toList "2.5") = some (mkRat 5 2, mkRat 3 2) := by
  have h := parseWKT_ring_point_round_trip
    [[String.toList "126.97 37.56", String.toList "126.98 37.56", String.toList "126.98 37.57"]]
    (by decide) (by decide)
  constructor
  · rw [h.2.1]; rfl
  · exact h.2.2.2 (String.toList "1.5") (String.toList "2.5") (mkRat 3 2) (mkRat 5 2)
      (by decide) (by decide) (by decide) (by decide) (by decide) (by decide)

/-! ## `searchAddress` (src/services/api.ts lines 87–120)

The three V-World attempts (`ADDRESS`/road, `ADDRESS`/parcel, `PLACE`) are
embedded as environment fields recording either a JSONP network failure or the
decoded response (`status`, `result.items`, `error.text`). -/

structure VwResp (Item : Type) where
  status : List Char
  items : List Item
  errText : Option (List Char)

inductive AttemptOutcome (Item : Type)
  | jsonpErr (msg : List Char)
  | resp (r : VwResp Item)

inductive AttemptTag
  | road
  | parcel
  | place
deriving DecidableEq

/-- The `type` query parameter of each attempt (the category parameter is not
part of the diagnostic text). -/
def searchTypeOf : AttemptTag → List Char
  | .road => String.toList "ADDRESS"
  | .parcel => String.toList "ADDRESS"
  | .place => String.toList "PLACE"

structure AddrEnv (Item : Type) where
  keyPresent : Bool
  road : AttemptOutcome Item
  parcel : AttemptOutcome Item
  place : AttemptOutcome Item

/-- `[${searchType}] ${data.response.error?.text || data.response.status}`
(JS `||` falls through on an empty string). -/
def statusDetail {Item : Type} (label : List Char) (r : VwResp Item) : List Char :=
  '[' :: label ++ (']' :: ' ' ::
    (match r.errText with
     | some t => if t.isEmpty then r.status else t
     | none => r.status))

/-- `[${searchType}] Network Error: ${e.message}` -/
def netDetail (label msg : List Char) : List Char :=
  '[' :: label ++ (']' :: ' ' :: String.toList "Network Error: " ++ msg)

/-- One `runSearch` attempt: first item on `status === "OK"` with nonempty
items; otherwise `null`, pushing a detail string unless the status is
`NOT_FOUND`; a thrown JSONP error also pushes a detail. -/
def runSearch {Item : Type} (label : List Char) (o : AttemptOutcome Item)
    (errs : List (List Char)) : Option Item × List (List Char) :=
  match o with
  | .jsonpErr m => (none, errs ++ [netDetail label m])
  | .resp r =>
    if r.status = String.toList "OK" ∧ 0 < r.items.length then (r.items.head?, errs)
    else if r.status ≠ String.toList "NOT_FOUND" then (none, errs ++ [statusDetail label r])
    else (none, errs)

/-- The item an attempt would yield (`null` on any failure). -/
def attemptItem {Item : Type} (o : AttemptOutcome Item) : Option Item :=
  match o with
  | .jsonpErr _ => none
  | .resp r =>
    if r.status = String.toList "OK" ∧ 0 < r.items.length then r.items.head? else none

/-- The detail string an attempt contributes to the diagnostic, if any. -/
def attemptDetail {Item : Type} (label : List Char) (o : AttemptOutcome Item) :
    Option (List Char) :=
  match o with
  | .jsonpErr m => some (netDetail label m)
  | .resp r =>
    if r.status = String.toList "OK" ∧ 0 < r.items.length then none
    else if r.status ≠ String.toList "NOT_FOUND" then some (statusDetail label r)
    else none

lemma runSearch_eq {Item : Type} (label : List Char) (o : AttemptOutcome Item)
    (errs : List (List Char)) :
    runSearch label o errs = (attemptItem o, errs ++ (attemptDetail label o).toList) := by
  cases o with
  | jsonpErr m => rfl
  | resp r =>
    unfold runSearch attemptItem attemptDetail
    dsimp only
    split_ifs with h1 h2 <;> simp

/-- `errorDetails.join(", ")`, or the fallback text when no detail accrued. -/
def joinDetails (errs : List (List Char)) : List Char :=
  if errs.isEmpty then String.toList "결과 없음"
  else [',', ' '].intercalate errs

/-- `searchAddress` (v1): three sequential attempts in fixed order, stopping at
the first hit; the accumulated diagnostic is thrown only when all three fail.
The second component records which attempts were issued, in order. -/
def searchAddress {Item : Type} (env : AddrEnv Item) :
    Except (List Char) Item × List AttemptTag :=
  if env.keyPresent = false then
    (.error (String.toList "V-World API Key가 설정되지 않았습니다. .env 파일을 확인하세요."), [])
  else
    match runSearch (searchTypeOf .road) env.road [] with
    | (some it, _) => (.ok it, [.road])
    | (none, e1) =>
      match runSearch (searchTypeOf .parcel) env.parcel e1 with
      | (some it, _) => (.ok it, [.road, .parcel])
      | (none, e2) =>
        match runSearch (searchTypeOf .place) env.place e2 with
        | (some it, _) => (.ok it, [.road, .parcel, .place])
        | (none, e3) =>
          (.error (String.toList "검색 실패: " ++ joinDetails e3),
            [.road, .parcel, .place])

/-- C5: `searchAddress` tries road, parcel, place in that fixed order and
returns the first non-empty result without issuing later attempts; a
`NOT_FOUND` attempt contributes nothing to the diagnostic, other failures
accumulate, and the diagnostic is thrown only when all three attempts fail. -/
theorem searchAddress_fixed_order_first_hit {Item : Type} (env : AddrEnv Item)
    (hkey : env.keyPresent = true) :
    (∀ it, attemptItem env.road = some it → searchAddress env = (.ok it, [.road]))
    ∧ (attemptItem env.road = none → ∀ it, attemptItem env.parcel = some it →
        searchAddress env = (.ok it, [.road, .parcel]))
    ∧ (attemptItem env.road = none → attemptItem env.parcel = none →
        ∀ it, attemptItem env.place = some it →
        searchAddress env = (.ok it, [.road, .parcel, .place]))
    ∧ (attemptItem env.road = none → attemptItem env.parcel = none →
        attemptItem env.place = none →
        searchAddress env = (.error (String.toList "검색 실패: " ++ joinDetails
          ((attemptDetail (searchTypeOf .road) env.road).toList ++
           (attemptDetail (searchTypeOf .parcel) env.parcel).toList ++
           (attemptDetail (searchTypeOf .place) env.place).toList)),
          [.road, .parcel, .place]))
    ∧ (∀ (label : List Char) (r : VwResp Item), r.status = String.toList "NOT_FOUND" →
        attemptDetail label (.resp r) = none) := by
  refine ⟨?_, ?_, ?_, ?_, ?_⟩
  · intro it h
    simp [searchAddress, hkey, runSearch_eq, h]
  · intro h1 it h2
    simp [searchAddress, hkey, runSearch_eq, h1, h2]
  · intro h1 h2 it h3
    simp [searchAddress, hkey, runSearch_eq, h1, h2, h3]
  · intro h1 h2 h3
    simp [searchAddress, hkey, runSearch_eq, h1, h2, h3]
  · intro label r hst
    have : ¬(r.status = String.toList "OK" ∧ 0 < r.items.length) := by
      rintro ⟨h, -⟩
      rw [hst] at h
      exact absurd h (by decide)
    simp [attemptDetail, this, hst]

/-- Witness for C5: road misses with `NOT_FOUND`, parcel fails on the network,
place succeeds; the place item is returned after all three attempts. -/
theorem searchAddress_fixed_order_first_hit_witness :
    searchAddress
      (⟨true, .resp ⟨String.toList "NOT_FOUND", [], none⟩,
        .jsonpErr (String.toList "boom"), .resp ⟨String.toList "OK", [7], none⟩⟩ : AddrEnv Nat) =
      (.ok 7, [.road, .parcel, .place]) := by
  exact (searchAddress_fixed_order_first_hit _ rfl).2.2.1 (by decide) (by decide) 7 (by decide)

/-! ## `searchZones` (src/services/api.ts lines 628–654)

The `fetchStandard` text is embedded as either a thrown error, an XML error
envelope (leading `<`, summarised by `parseXmlError`), an unparsable body, or a
parsed JSON body; a missing `body`/`body.items` field and an empty items array
both yield zero zones. -/

inductive ZoneBody (Item : Type)
  | xmlErr (msg : List Char)
  | badJson
  | parsed (items? : Option (Item ⊕ List Item))

structure ZonesEnv (Item : Type) where
  keyPresent : Bool
  response : Except (List Char) (ZoneBody Item)

/-- `Array.isArray(items) ? items : [items]` -/
def normalizeItems {Item : Type} : Item ⊕ List Item → List Item
  | .inl it => [it]
  | .inr l => l

/-- A zone produced by the spread `{ ...item, type: 'trade' }`. -/
structure TaggedZone (Item : Type) where
  item : Item
  typeTag : List Char

/-- `searchZones` (v2): XML envelope and JSON parse failures throw; zero
items throw `주변 상권 정보가 없습니다.`; otherwise each item is tagged
`type: 'trade'`. -/
def searchZones {Item : Type} (env : ZonesEnv Item) :
    Except (List Char) (List (TaggedZone Item)) :=
  if env.keyPresent = false then .error (String.toList "공공데이터 API Key가 누락되었습니다.")
  else
    match env.response with
    | .error e => .error e
    | .ok (.xmlErr m) => .error m
    | .ok .badJson => .error (String.toList "상권 데이터 파싱 실패")
    | .ok (.parsed items?) =>
      let zones :=
        match items? with
        | some its => (normalizeItems its).map fun it => TaggedZone.mk it (String.toList "trade")
        | none => []
      if zones.length = 0 then .error (String.toList "주변 상권 정보가 없습니다.")
      else .ok zones

/-- The item list of the provider response (empty when the response is absent,
an error envelope, unparsable, or lacks `body.items`). -/
def zoneItemsOf {Item : Type} (env : ZonesEnv Item) : List Item :=
  match env.response with
  | .ok (.parsed (some its)) => normalizeItems its
  | _ => []

/-- C9: `searchZones` never returns an empty list — zero provider items always
surface as a thrown error — and a response with at least one item yields
exactly the non-empty item list, each zone tagged `'trade'`. -/
theorem searchZones_zero_items_throws {Item : Type} (env : ZonesEnv Item) :
    (zoneItemsOf env = [] → ∃ e, searchZones env = .error e)
    ∧ (∀ zs, searchZones env = .ok zs →
        zs = (zoneItemsOf env).map (fun it => TaggedZone.mk it (String.toList "trade"))
        ∧ zs ≠ [] ∧ ∀ z ∈ zs, z.typeTag = String.toList "trade") := by
  constructor
  · intro hempty
    by_cases hkey : env.keyPresent = false
    · exact ⟨String.toList "공공데이터 API Key가 누락되었습니다.", by simp [searchZones, hkey]⟩
    · rcases hresp : env.response with e | b
      · exact ⟨e, by simp [searchZones, hkey, hresp]⟩
      · cases b with
        | xmlErr m => exact ⟨m, by simp [searchZones, hkey, hresp]⟩
        | badJson =>
          exact ⟨String.toList "상권 데이터 파싱 실패", by simp [searchZones, hkey, hresp]⟩
        | parsed items? =>
          cases items? with
          | none =>
            exact ⟨String.toList "주변 상권 정보가 없습니다.",
              by simp [searchZones, hkey, hresp]⟩
          | some its =>
            have hz : normalizeItems its = [] := by
              rw [← hempty]; simp [zoneItemsOf, hresp]
            exact ⟨String.toList "주변 상권 정보가 없습니다.",
              by simp [searchZones, hkey, hresp, hz]⟩
  · intro zs hzs
    by_cases hkey : env.keyPresent = false
    · simp [searchZones, hkey] at hzs
    · rcases hresp : env.response with e | b
      · simp [searchZones, hkey, hresp] at hzs
      · cases b with
        | xmlErr m => simp [searchZones, hkey, hresp] at hzs
        | badJson => simp [searchZones, hkey, hresp] at hzs
        | parsed items? =>
          cases items? with
          | none => simp [searchZones, hkey, hresp] at hzs
          | some its =>
            simp only [searchZones, hkey, hresp] at hzs
            by_cases hlen : ((normalizeItems its).map fun it =>
                TaggedZone.mk it (String.toList "trade")).length = 0
            · rw [if_pos hlen] at hzs
              simp at hzs
            · rw [if_neg hlen] at hzs
              injection hzs with h
              subst h
              refine ⟨by simp [zoneItemsOf, hresp], ?_, ?_⟩
              · intro hc
                rw [hc] at hlen
                simp at hlen
              · intro z hz
                obtain ⟨it, _, rfl⟩ := List.mem_map.mp hz
                rfl

/-- Witness for C9: one provider item yields one `'trade'`-tagged zone; a
parsed body without items throws. -/
theorem searchZones_zero_items_throws_witness :
    searchZones (⟨true, .ok (.parsed (some (.inr [5])))⟩ : ZonesEnv Nat) ≠ .ok []
    ∧ (∃ e, searchZones (⟨true, .ok (.parsed none)⟩ : ZonesEnv Nat) = .error e) := by
  constructor
  · intro hc
    have h := (searchZones_zero_items_throws
      (⟨true, .ok (.parsed (some (.inr [5])))⟩ : ZonesEnv Nat)).2 [] hc
    exact h.2.1 rfl
  · exact (searchZones_zero_items_throws
      (⟨true, .ok (.parsed none)⟩ : ZonesEnv Nat)).1 (by rfl)

/-! ## `fetchLocalAdminPolygon` — SGIS statistics-service variant
(src/services/api.ts lines 797–864)

The environment records the token exchange, the geocode response, and the
boundary response per `(adm_cd, year)` pair (`fetchStandard`/`JSON.parse`
failures are `Except.error`; a missing `features` field and an empty features
array — both of which trigger the previous-year retry — are embedded as the
empty list).  The second result component logs the boundary requests issued. -/

abbrev GeoRing := List (ℚ × ℚ)

abbrev RingList := List GeoRing

structure GeoData where
  errCd : Int
  resultdata : List (List Char)

inductive Geom
  | polygon (rings : RingList)
  | multiPolygon (polys : List RingList)
  | other

structure SgisFeature where
  geometry : Geom

structure BoundData where
  features : List SgisFeature

structure SgisEnv where
  tokenRes : Except (List Char) (List Char)
  geocodeRes : Except (List Char) GeoData
  boundaryRes : List Char → List Char → Except (List Char) BoundData
  currentYear : Nat
  proj4 : Option ((ℚ × ℚ) → (ℚ × ℚ))

abbrev PolygonCache := List (List Char × RingList)

/-- `polygonCache.get` on the process-wide `Map`. -/
def cacheFind (cache : PolygonCache) (k : List Char) : Option RingList :=
  match cache with
  | [] => none
  | (k2, v) :: rest => if k2 = k then some v else cacheFind rest k

/-- `new Date().getFullYear().toString()` style year rendering. -/
def natToChars (n : Nat) : List Char :=
  (toString n).toList

/-- The `MultiPolygon` reduction of the SGIS variant: `forEach` keeping the
polygon whose outer ring `poly[0]` is longest (`maxLen` strictly increasing, so
ties keep the first); an entry without rings makes `poly[0].length` throw. -/
def pickMaxPoly : List RingList → Nat → RingList → Except (List Char) RingList
  | [], _, best => .ok best
  | poly :: rest, maxLen, best =>
    match poly with
    | [] => .error (String.toList "TypeError: poly[0] is undefined")
    | r0 :: _ =>
      if maxLen < r0.length then pickMaxPoly rest r0.length poly
      else pickMaxPoly rest maxLen best

/-- `ring.map(p => proj4(PROJ_5179, PROJ_WGS84, p))` with the `[lat, lon]`
swap, or a plain axis swap when the `proj4` global is undefined. -/
def sgisProjectRing (proj4 : Option ((ℚ × ℚ) → (ℚ × ℚ))) (ring : GeoRing) : GeoRing :=
  ring.map fun p =>
    match proj4 with
    | some f => ((f p).2, (f p).1)
    | none => (p.2, p.1)

/-- Boundary-data consumption: first feature, geometry reduced to `coords`,
then only the outer ring `coords[0]`, reprojected; a non-empty result is
written to the polygon cache. -/
def sgisUseBound (env : SgisEnv) (label : List Char) (cache : PolygonCache)
    (b : BoundData) : Except (List Char) (RingList × PolygonCache) :=
  match b.features with
  | [] => .ok ([], cache)
  | f :: _ =>
    let coordsE : Except (List Char) RingList :=
      match f.geometry with
      | .polygon rs => .ok rs
      | .multiPolygon ps => pickMaxPoly ps 0 []
      | .other => .ok []
    match coordsE with
    | .error e => .error e
    | .ok coords =>
      match coords with
      | [] => .ok ([], cache)
      | ring :: _ =>
        let result := [sgisProjectRing env.proj4 ring]
        .ok (result, (label, result) :: cache)

/-- The body of the `try` block: token, geocode, current-year boundary with a
single previous-year retry on zero features. -/
def sgisBody (env : SgisEnv) (label : List Char) (cache : PolygonCache) :
    Except (List Char) (RingList × PolygonCache) × List (List Char × List Char) :=
  match env.tokenRes with
  | .error e => (.error e, [])
  | .ok _ =>
    match env.geocodeRes with
    | .error e => (.error e, [])
    | .ok geo =>
      if geo.errCd = 0 ∧ 0 < geo.resultdata.length then
        let admCd := geo.resultdata.headD []
        let yCur := natToChars env.currentYear
        match env.boundaryRes admCd yCur with
        | .error e => (.error e, [(admCd, yCur)])
        | .ok b1 =>
          if b1.features.length = 0 then
            let yPrev := natToChars (env.currentYear - 1)
            match env.boundaryRes admCd yPrev with
            | .error e => (.error e, [(admCd, yCur), (admCd, yPrev)])
            | .ok b2 => (sgisUseBound env label cache b2, [(admCd, yCur), (admCd, yPrev)])
          else (sgisUseBound env label cache b1, [(admCd, yCur)])
      else (.ok ([], cache), [])

/-- `fetchLocalAdminPolygon` (SGIS variant): cache first, then the `try` body
with the surrounding `catch` turning every thrown error into `return []`. -/
def fetchLocalAdminPolygonSgis (env : SgisEnv) (mainTrarNm : List Char)
    (cache : PolygonCache) :
    Except (List Char) (RingList × PolygonCache) × List (List Char × List Char) :=
  match cacheFind cache mainTrarNm with
  | some p => (.ok (p, cache), [])
  | none =>
    match sgisBody env mainTrarNm cache with
    | (.ok r, log) => (.ok r, log)
    | (.error _, log) => (.ok ([], cache), log)

/-- C6: with a cache miss, a good token, a geocode hit, and a parsable
current-year boundary response, zero features trigger exactly one retry with
the previous calendar year, and at least one feature suppresses the
previous-year request entirely. -/
theorem sgis_previous_year_single_retry (env : SgisEnv) (label : List Char)
    (cache : PolygonCache) (tk : List Char) (geo : GeoData) (admCd : List Char)
    (rest : List (List Char)) (b1 : BoundData)
    (hmiss : cacheFind cache label = none)
    (htk : env.tokenRes = .ok tk)
    (hgeo : env.geocodeRes = .ok geo)
    (herr : geo.errCd = 0)
    (hdata : geo.resultdata = admCd :: rest)
    (hb1 : env.boundaryRes admCd (natToChars env.currentYear) = .ok b1) :
    (b1.features = [] →
      (fetchLocalAdminPolygonSgis env label cache).2 =
        [(admCd, natToChars env.currentYear), (admCd, natToChars (env.currentYear - 1))])
    ∧ (b1.features ≠ [] →
      (fetchLocalAdminPolygonSgis env label cache).2 =
        [(admCd, natToChars env.currentYear)]) := by
  constructor
  · intro hfe
    have hlen : b1.features.length = 0 := by rw [hfe]; rfl
    rcases hretry : env.boundaryRes admCd (natToChars (env.currentYear - 1)) with e | b2
    · simp [fetchLocalAdminPolygonSgis, hmiss, sgisBody, htk, hgeo, herr, hdata,
        hb1, hlen, hretry]
    · simp [fetchLocalAdminPolygonSgis, hmiss, sgisBody, htk, hgeo, herr, hdata,
        hb1, hlen, hretry]
      rcases sgisUseBound env label cache b2 with e2 | r2 <;> simp
  · intro hfe
    have hlen : ¬(b1.features.length = 0) := by
      intro hc
      exact hfe (List.length_eq_zero.mp hc)
    simp [fetchLocalAdminPolygonSgis, hmiss, sgisBody, htk, hgeo, herr, hdata, hb1, hlen]
    rcases sgisUseBound env label cache b1 with e2 | r2 <;> simp

/-- Witness for C6: a current-year response with zero features produces
requests for the current and previous years; a one-feature response stops at
the current year. -/
theorem sgis_previous_year_single_retry_witness :
    (fetchLocalAdminPolygonSgis
      ⟨.ok [], .ok ⟨0, [['1']]⟩, fun _ _ => .ok ⟨[]⟩, 2025, none⟩ [] []).2 =
      [(['1'], String.toList "2025"), (['1'], String.toList "2024")]
    ∧ (fetchLocalAdminPolygonSgis
      ⟨.ok [], .ok ⟨0, [['1']]⟩, fun _ _ => .ok ⟨[⟨.other⟩]⟩, 2025, none⟩ [] []).2 =
      [(['1'], String.toList "2025")] := by
  constructor
  · have h := (sgis_previous_year_single_retry
      ⟨.ok [], .ok ⟨0, [['1']]⟩, fun _ _ => .ok ⟨[]⟩, 2025, none⟩ [] [] [] ⟨0, [['1']]⟩
      ['1'] [] ⟨[]⟩ rfl rfl rfl rfl rfl rfl).1 rfl
    rw [h]; rfl
  · have h := (sgis_previous_year_single_retry
      ⟨.ok [], .ok ⟨0, [['1']]⟩, fun _ _ => .ok ⟨[⟨.other⟩]⟩, 2025, none⟩ [] [] []
      ⟨0, [['1']]⟩ ['1'] [] ⟨[⟨.other⟩]⟩ rfl rfl rfl rfl rfl rfl).2 (by simp)
    rw [h]; rfl

/-! ## `fetchLocalAdminPolygon` — local-shapefile variant
(src/services/api.ts lines 291–402)

`ShpFeature.fileCode` embeds
`String(props.ADM_DR_CD || props.adm_dr_cd || props.adm_cd || props.ADM_CD || "").trim()`
and `fileName` the analogous `ADM_DR_NM` resolution; the module-level
`cachedFeatures` is threaded explicitly. -/

/-- The two projected CRS definitions of the source: `PROJ_5179` (modern
UTM-K/GRS80, false easting 1,000,000) and `PROJ_5174` (legacy Bessel, false
easting 200,000). -/
inductive SrcProj
  | proj5179
  | proj5174
deriving DecidableEq

structure ShpFeature where
  fileCode : List Char
  fileName : List Char
  geometry : Geom

structure ShpEnv where
  shpLoaded : Bool
  loadRes : Except (List Char) (Option (List ShpFeature))
  proj4 : Option (SrcProj → (ℚ × ℚ) → (ℚ × ℚ))

/-- The `Zone` fields this variant reads, plus the anchor coordinates
(`searchLat`/`searchLon`) the `Zone` interface carries. -/
structure ZoneRec where
  mainTrarNm : List Char
  adminCode : Option (List Char)
  searchLat : Option ℚ
  searchLon : Option ℚ

/-- Coordinate normalization of the shapefile variant (lines 365–396): the
first point of the first ring decides the CRS — `x > 180 || y > 90` means
projected, then `x < 600000` selects the legacy Bessel system — and each point
is either reprojected (when the `proj4` global exists) or axis-swapped.  A
feature whose first ring is empty makes `testPoint[0]` throw. -/
def normalizeCoords (proj4 : Option (SrcProj → (ℚ × ℚ) → (ℚ × ℚ)))
    (coords : RingList) : Except (List Char) RingList :=
  match coords with
  | [] => .ok []
  | ring1 :: _ =>
    match ring1 with
    | [] => .error (String.toList "TypeError: testPoint is undefined")
    | (x, y) :: _ =>
      let needsProj := decide (180 < x) || decide (90 < y)
      let srcProj := if needsProj = true ∧ x < 600000 then SrcProj.proj5174 else SrcProj.proj5179
      .ok (coords.map fun ring => ring.map fun c =>
        if needsProj = true then
          match proj4 with
          | some pf => ((pf srcProj c).2, (pf srcProj c).1)
          | none => (c.2, c.1)
        else (c.2, c.1))

/-- Feature lookup: Strategy A by code (exact 10-digit, exact 8-digit prefix,
or `startsWith` the 8-digit prefix), then Strategy B by exact district-name
equality; `find` takes the first match in dataset order. -/
def shpFindFeature (fs : List ShpFeature) (adminCode targetCode8 dongName : List Char) :
    Option ShpFeature :=
  let featA := fs.find? fun f =>
    !f.fileCode.isEmpty &&
      (f.fileCode == adminCode || f.fileCode == targetCode8 ||
        targetCode8.isPrefixOf f.fileCode)
  match featA with
  | some f => some f
  | none =>
    if dongName.isEmpty = false then fs.find? fun f => f.fileName == dongName
    else none

/-- `const nameParts = zone.mainTrarNm.split(" "); const dongName =
nameParts.length >= 3 ? nameParts[nameParts.length - 1] : "";` -/
def extractDongName (nm : List Char) : List Char :=
  let nameParts := nm.splitOn ' '
  if 3 ≤ nameParts.length then nameParts.getLastD [] else []

/-- Geometry use after a feature was found: a `Polygon` contributes all its
rings, a `MultiPolygon` only `coordinates[0]` (its first constituent polygon);
the rings then pass through `normalizeCoords`. -/
def shpAfterLoad (env : ShpEnv) (zone : ZoneRec) (fs : List ShpFeature) :
    Except (List Char) RingList :=
  let adminCode := zone.adminCode.getD []
  let targetCode8 := adminCode.take 8
  let dongName := extractDongName zone.mainTrarNm
  match shpFindFeature fs adminCode targetCode8 dongName with
  | none => .ok []
  | some f =>
    let coordsE : Except (List Char) RingList :=
      match f.geometry with
      | .polygon rs => .ok rs
      | .multiPolygon ps =>
        match ps with
        | [] => .error (String.toList "TypeError: coordinates[0] is undefined")
        | p1 :: _ => .ok p1
      | .other => .ok []
    match coordsE with
    | .error e => .error e
    | .ok coords =>
      if coords.length = 0 then .ok []
      else normalizeCoords env.proj4 coords

/-- The surrounding `try`/`catch` with the trailing `return []`: a thrown
error becomes the empty polygon. -/
def catchEmptyPolygon (r : Except (List Char) RingList) : Except (List Char) RingList :=
  match r with
  | .ok p => .ok p
  | .error _ => .ok []

/-- `fetchLocalAdminPolygon` (shapefile variant): load-and-cache the feature
set, match, normalize; the surrounding `try`/`catch` plus the trailing
`return []` turn every failure into the empty polygon.  The second component
is the updated `cachedFeatures`. -/
def fetchLocalAdminPolygonShp (env : ShpEnv) (zone : ZoneRec)
    (cached : Option (List ShpFeature)) :
    Except (List Char) RingList × Option (List ShpFeature) :=
  match cached with
  | some fs => (catchEmptyPolygon (shpAfterLoad env zone fs), some fs)
  | none =>
    if env.shpLoaded = false then (.ok [], none)
    else
      match env.loadRes with
      | .error _ => (.ok [], none)
      | .ok none => (.ok [], none)
      | .ok (some fs) => (catchEmptyPolygon (shpAfterLoad env zone fs), some fs)

/-- C2: boundary acquisition never propagates an error — both
`fetchLocalAdminPolygon` variants always resolve to an `ok` polygon — and when
the cache misses and the token exchange or the geocode lookup fails, the SGIS
variant resolves to the empty polygon with the cache unchanged. -/
theorem boundary_never_throws (env : SgisEnv) (label : List Char)
    (cache : PolygonCache) (env2 : ShpEnv) (zone : ZoneRec)
    (cached : Option (List ShpFeature)) :
    (∃ r, (fetchLocalAdminPolygonSgis env label cache).1 = .ok r)
    ∧ (cacheFind cache label = none → ∀ e, env.tokenRes = .error e →
        (fetchLocalAdminPolygonSgis env label cache).1 = .ok ([], cache))
    ∧ (cacheFind cache label = none → ∀ geo, env.geocodeRes = .ok geo →
        ¬(geo.errCd = 0 ∧ 0 < geo.resultdata.length) →
        (fetchLocalAdminPolygonSgis env label cache).1 = .ok ([], cache))
    ∧ (∃ p c2, fetchLocalAdminPolygonShp env2 zone cached = (.ok p, c2)) := by
  refine ⟨?_, ?_, ?_, ?_⟩
  · rcases hc : cacheFind cache label with _ | p
    · rcases hb : sgisBody env label cache with ⟨res, log⟩
      cases res with
      | ok r => exact ⟨r, by simp [fetchLocalAdminPolygonSgis, hc, hb]⟩
      | error e => exact ⟨([], cache), by simp [fetchLocalAdminPolygonSgis, hc, hb]⟩
    · exact ⟨(p, cache), by simp [fetchLocalAdminPolygonSgis, hc]⟩
  · intro hc e hte
    simp [fetchLocalAdminPolygonSgis, hc, sgisBody, hte]
  · intro hc geo hgeo hmiss
    rcases hte : env.tokenRes with e | tk
    · simp [fetchLocalAdminPolygonSgis, hc, sgisBody, hte]
    · simp [fetchLocalAdminPolygonSgis, hc, sgisBody, hte, hgeo, hmiss]
  · rcases hcd : cached with _ | fs
    · by_cases hsl : env2.shpLoaded = false
      · exact ⟨[], none, by simp [fetchLocalAdminPolygonShp, hcd, hsl]⟩
      · rcases hlr : env2.loadRes with e | ofs
        · exact ⟨[], none, by simp [fetchLocalAdminPolygonShp, hcd, hsl, hlr]⟩
        · rcases ofs with _ | fs
          · exact ⟨[], none, by simp [fetchLocalAdminPolygonShp, hcd, hsl, hlr]⟩
          · rcases hal : shpAfterLoad env2 zone fs with e | p
            · exact ⟨[], some fs,
                by simp [fetchLocalAdminPolygonShp, hcd, hsl, hlr, catchEmptyPolygon, hal]⟩
            · exact ⟨p, some fs,
                by simp [fetchLocalAdminPolygonShp, hcd, hsl, hlr, catchEmptyPolygon, hal]⟩
    · rcases hal : shpAfterLoad env2 zone fs with e | p
      · exact ⟨[], some fs, by simp [fetchLocalAdminPolygonShp, hcd, catchEmptyPolygon, hal]⟩
      · exact ⟨p, some fs, by simp [fetchLocalAdminPolygonShp, hcd, catchEmptyPolygon, hal]⟩

/-- Witness for C2: a failing token exchange resolves to the empty polygon. -/
theorem boundary_never_throws_witness :
    (fetchLocalAdminPolygonSgis
      ⟨.error (String.toList "auth down"), .error (String.toList "auth down"),
        fun _ _ => .error [], 2025, none⟩ [] []).1 = .ok ([], []) := by
  exact (boundary_never_throws
    ⟨.error (String.toList "auth down"), .error (String.toList "auth down"),
      fun _ _ => .error [], 2025, none⟩ [] []
    ⟨false, .error [], none⟩ ⟨[], none, none, none⟩ none).2.1 rfl
    (String.toList "auth down") rfl

/-- C4 counterexample: the point `(100, 95)` has first component at most 180,
yet the code projects it (the `y > 90` disjunct fires and, with `x < 600000`,
selects the legacy system): with a projection function available the result is
the projected point, not the axis swap `(95, 100)`. -/
theorem crs_detection_counterexample :
    normalizeCoords (some fun _ _ => ((0 : ℚ), (0 : ℚ)))
        [[((100 : ℚ), (95 : ℚ))]] = .ok [[((0 : ℚ), (0 : ℚ))]]
    ∧ ([[((0 : ℚ), (0 : ℚ))]] : RingList) ≠ [[((95 : ℚ), (100 : ℚ))]] := by
  constructor
  · rfl
  · decide

/-- C4 amended: the CRS detection is by signed comparison on both components —
a point is treated as projected iff `x > 180` or `y > 90` (not by the first
component's magnitude alone); among projected points `x < 600000` (signed)
selects the legacy Bessel system, otherwise the modern GRS80 system; only when
`x ≤ 180` and `y ≤ 90` is the ring merely axis-swapped. -/
theorem crs_detection_amended (p4 : Option (SrcProj → (ℚ × ℚ) → (ℚ × ℚ)))
    (pf : SrcProj → (ℚ × ℚ) → (ℚ × ℚ)) (x y : ℚ) (r : GeoRing) (rs : RingList) :
    (x ≤ 180 → y ≤ 90 →
      normalizeCoords p4 (((x, y) :: r) :: rs) =
        .ok ((((x, y) :: r) :: rs).map fun ring => ring.map fun c => (c.2, c.1)))
    ∧ (180 < x ∨ 90 < y → x < 600000 →
      normalizeCoords (some pf) (((x, y) :: r) :: rs) =
        .ok ((((x, y) :: r) :: rs).map fun ring => ring.map fun c =>
          ((pf SrcProj.proj5174 c).2, (pf SrcProj.proj5174 c).1)))
    ∧ (180 < x ∨ 90 < y → ¬(x < 600000) →
      normalizeCoords (some pf) (((x, y) :: r) :: rs) =
        .ok ((((x, y) :: r) :: rs).map fun ring => ring.map fun c =>
          ((pf SrcProj.proj5179 c).2, (pf SrcProj.proj5179 c).1))) := by
  refine ⟨?_, ?_, ?_⟩
  · intro hx hy
    have hnp : (decide (180 < x) || decide (90 < y)) = false := by
      simp [not_lt.mpr hx, not_lt.mpr hy]
    simp [normalizeCoords, hnp]
  · intro hproj hlegacy
    have hnp : (decide (180 < x) || decide (90 < y)) = true := by
      rcases hproj with h | h <;> simp [h]
    simp [normalizeCoords, hnp, hlegacy]
  · intro hproj hmodern
    have hnp : (decide (180 < x) || decide (90 < y)) = true := by
      rcases hproj with h | h <;> simp [h]
    simp [normalizeCoords, hnp, hmodern]

/-- Witness for the amended C4 at the geographic point `(127, 37)` (axis swap
only) and the projected point `(950000, 1950000)` (modern GRS80). -/
theorem crs_detection_amended_witness :
    normalizeCoords (some fun _ _ => ((1 : ℚ), (2 : ℚ)))
        [[((127 : ℚ), (37 : ℚ))]] = .ok [[((37 : ℚ), (127 : ℚ))]]
    ∧ normalizeCoords (some fun pr _ => if pr = SrcProj.proj5179 then ((3 : ℚ), (4 : ℚ))
        else ((5 : ℚ), (6 : ℚ)))
        [[((950000 : ℚ), (1950000 : ℚ))]] = .ok [[((4 : ℚ), (3 : ℚ))]] := by
  constructor
  · exact (crs_detection_amended (some fun _ _ => ((1 : ℚ), (2 : ℚ)))
      (fun _ _ => ((1 : ℚ), (2 : ℚ))) 127 37 [] []).1 (by norm_num) (by norm_num)
  · have h := (crs_detection_amended
      (some fun pr _ => if pr = SrcProj.proj5179 then ((3 : ℚ), (4 : ℚ)) else ((5 : ℚ), (6 : ℚ)))
      (fun pr _ => if pr = SrcProj.proj5179 then ((3 : ℚ), (4 : ℚ)) else ((5 : ℚ), (6 : ℚ)))
      950000 1950000 [] []).2.2 (Or.inl (by norm_num)) (by norm_num)
    rw [h]; rfl

/-! ## C7: centroid disambiguation -/

/-- Modelled from the spec: "ring centroid (computed as the arithmetic mean of
ring vertices)".  No such computation exists in src/; this definition follows
the spec's words only to compare its selection rule against the code. -/
def specRingCentroid (ring : GeoRing) : ℚ × ℚ :=
  ((ring.map Prod.fst).sum / ring.length, (ring.map Prod.snd).sum / ring.length)

/-- Modelled from the spec: "squared geographic distance" to the anchor. -/
def specSqDist (a b : ℚ × ℚ) : ℚ :=
  (a.1 - b.1) ^ 2 + (a.2 - b.2) ^ 2

lemma find?_of_split {α : Type} (p : α → Bool) :
    ∀ (pre : List α) (x : α) (suf : List α), (∀ a ∈ pre, p a = false) → p x = true →
    (pre ++ x :: suf).find? p = some x
  | [], x, suf, _, hx => by simp [List.find?_cons_of_pos _ hx]
  | a :: pre, x, suf, hpre, hx => by
    have ha : p a = false := hpre a (by simp)
    rw [List.cons_append, List.find?_cons_of_neg _ (by simp [ha])]
    exact find?_of_split p pre x suf (fun b hb => hpre b (by simp [hb])) hx

/-- C7 counterexample: two candidate features share the district name `X`; the
anchor `(10, 10)` coincides with the second feature's ring centroid, whose
squared distance to the anchor (0) is smaller than the first feature's (200),
yet the code returns the first feature's polygon. -/
theorem centroid_disambiguation_counterexample :
    fetchLocalAdminPolygonShp ⟨true, .ok none, none⟩
        ⟨String.toList "A B X", none, some 10, some 10⟩
        (some [⟨[], ['X'], .polygon [[((0 : ℚ), (0 : ℚ))]]⟩,
               ⟨[], ['X'], .polygon [[((10 : ℚ), (10 : ℚ))]]⟩]) =
      (.ok [[((0 : ℚ), (0 : ℚ))]],
        some [⟨[], ['X'], .polygon [[((0 : ℚ), (0 : ℚ))]]⟩,
              ⟨[], ['X'], .polygon [[((10 : ℚ), (10 : ℚ))]]⟩])
    ∧ specSqDist (specRingCentroid [((10 : ℚ), (10 : ℚ))]) (10, 10) <
        specSqDist (specRingCentroid [((0 : ℚ), (0 : ℚ))]) (10, 10)
    ∧ ([[((0 : ℚ), (0 : ℚ))]] : RingList) ≠ [[((10 : ℚ), (10 : ℚ))]] := by
  refine ⟨rfl, ?_, by decide⟩
  norm_num [specSqDist, specRingCentroid]

/-- C7 amended: the local-dataset fallback ignores the anchor point entirely
(the result is invariant under changing `searchLat`/`searchLon`) and, when no
feature matches by code, selects the first feature in dataset order whose name
equals the extracted district name; that feature's polygon rings are
normalized and returned. -/
theorem shp_disambiguation_first_match (env : ShpEnv) (nm : List Char)
    (code : Option (List Char)) (la lo la2 lo2 : Option ℚ)
    (cached : Option (List ShpFeature))
    (fs pre suf : List ShpFeature) (f0 : ShpFeature) (d : List Char) :
    (fetchLocalAdminPolygonShp env ⟨nm, code, la, lo⟩ cached =
      fetchLocalAdminPolygonShp env ⟨nm, code, la2, lo2⟩ cached)
    ∧ (extractDongName nm = d → d ≠ [] →
       (∀ f ∈ fs, (!f.fileCode.isEmpty &&
          (f.fileCode == code.getD [] || f.fileCode == (code.getD []).take 8 ||
            ((code.getD []).take 8).isPrefixOf f.fileCode)) = false) →
       fs = pre ++ f0 :: suf → (∀ f ∈ pre, (f.fileName == d) = false) →
       (f0.fileName == d) = true →
       shpFindFeature fs (code.getD []) ((code.getD []).take 8) d = some f0
       ∧ (∀ rs2, f0.geometry = .polygon rs2 → 0 < rs2.length →
           fetchLocalAdminPolygonShp env ⟨nm, code, la, lo⟩ (some fs) =
             (catchEmptyPolygon (normalizeCoords env.proj4 rs2), some fs))) := by
  constructor
  · rfl
  · intro hd hdne hnocode hsplit hpre hf0
    have hA : fs.find? (fun f =>
        !f.fileCode.isEmpty &&
          (f.fileCode == code.getD [] || f.fileCode == (code.getD []).take 8 ||
            ((code.getD []).take 8).isPrefixOf f.fileCode)) = none := by
      apply List.find?_eq_none.mpr
      intro f hf
      simp [hnocode f hf]
    have hB : fs.find? (fun f => f.fileName == d) = some f0 := by
      rw [hsplit]
      exact find?_of_split _ pre f0 suf hpre hf0
    have hfind : shpFindFeature fs (code.getD []) ((code.getD []).take 8) d = some f0 := by
      have hdne2 : d.isEmpty = false := by
        cases d with
        | nil => exact absurd rfl hdne
        | cons a b => rfl
      simp [shpFindFeature, hA, hdne2, hB]
    refine ⟨hfind, ?_⟩
    intro rs2 hgeom hlen
    have hlen2 : ¬(rs2.length = 0) := by omega
    simp [fetchLocalAdminPolygonShp, shpAfterLoad, hd, hfind, hgeom, hlen2]

/-- Witness for the amended C7: of two same-named features the first one's
polygon is returned. -/
theorem shp_disambiguation_first_match_witness :
    fetchLocalAdminPolygonShp ⟨true, .ok none, none⟩
        ⟨String.toList "A B X", none, none, none⟩
        (some [⟨[], ['X'], .polygon [[((0 : ℚ), (0 : ℚ))]]⟩,
               ⟨[], ['X'], .polygon [[((10 : ℚ), (10 : ℚ))]]⟩]) =
      (.ok [[((0 : ℚ), (0 : ℚ))]],
        some [⟨[], ['X'], .polygon [[((0 : ℚ), (0 : ℚ))]]⟩,
              ⟨[], ['X'], .polygon [[((10 : ℚ), (10 : ℚ))]]⟩]) := by
  have h := (shp_disambiguation_first_match ⟨true, .ok none, none⟩
    (String.toList "A B X") none none none none none
    (some [⟨[], ['X'], .polygon [[((0 : ℚ), (0 : ℚ))]]⟩,
           ⟨[], ['X'], .polygon [[((10 : ℚ), (10 : ℚ))]]⟩])
    [⟨[], ['X'], .polygon [[((0 : ℚ), (0 : ℚ))]]⟩,
     ⟨[], ['X'], .polygon [[((10 : ℚ), (10 : ℚ))]]⟩]
    [] [⟨[], ['X'], .polygon [[((10 : ℚ), (10 : ℚ))]]⟩]
    ⟨[], ['X'], .polygon [[((0 : ℚ), (0 : ℚ))]]⟩ ['X']).2
    rfl (by decide) (by decide) rfl (by simp) rfl
  rw [h.2 [[((0 : ℚ), (0 : ℚ))]] rfl (by decide)]
  rfl

/-! ## C8: multi-polygon ring selection -/

lemma pickMaxPoly_spec : ∀ (ps : List RingList) (maxLen : Nat) (best : RingList),
    (∀ p ∈ ps, p ≠ []) → (best.headD []).length = maxLen →
    ∃ c, pickMaxPoly ps maxLen best = .ok c ∧ (c = best ∨ c ∈ ps) ∧
      maxLen ≤ (c.headD []).length ∧ ∀ p ∈ ps, (p.headD []).length ≤ (c.headD []).length
  | [], maxLen, best, _, hbm =>
    ⟨best, rfl, Or.inl rfl, le_of_eq hbm.symm, by simp⟩
  | poly :: rest, maxLen, best, hall, hbm => by
    obtain ⟨r0, rrest, rfl⟩ := List.exists_cons_of_ne_nil (hall poly (List.mem_cons_self _ _))
    have hall' : ∀ p ∈ rest, p ≠ [] := fun p hp => hall p (List.mem_cons_of_mem _ hp)
    by_cases hgt : maxLen < r0.length
    · obtain ⟨c, hc, hcw, hle, hbound⟩ :=
        pickMaxPoly_spec rest r0.length (r0 :: rrest) hall' (by simp)
      refine ⟨c, by simp [pickMaxPoly, hgt, hc], ?_, ?_, ?_⟩
      · rcases hcw with rfl | h
        · exact Or.inr (List.mem_cons_self _ _)
        · exact Or.inr (List.mem_cons_of_mem _ h)
      · exact le_trans (le_of_lt hgt) hle
      · intro p hp
        rcases List.mem_cons.mp hp with rfl | h
        · simpa using hle
        · exact hbound p h
    · obtain ⟨c, hc, hcw, hle, hbound⟩ := pickMaxPoly_spec rest maxLen best hall' hbm
      refine ⟨c, by simp [pickMaxPoly, hgt, hc], ?_, hle, ?_⟩
      · rcases hcw with rfl | h
        · exact Or.inl rfl
        · exact Or.inr (List.mem_cons_of_mem _ h)
      · intro p hp
        rcases List.mem_cons.mp hp with rfl | h
        · simp only [List.headD_cons]
          exact le_trans (not_lt.mp hgt) hle
        · exact hbound p h

/-- C8 counterexample: in the local-shapefile variant a `MultiPolygon` feature
contributes the rings of its FIRST constituent polygon; here the second
polygon's outer ring has more vertices (3 > 2) yet the result is the first
polygon's two-vertex ring, and the larger ring does not appear. -/
theorem multipolygon_largest_ring_counterexample :
    fetchLocalAdminPolygonShp ⟨true, .ok none, none⟩
        ⟨String.toList "A B X", none, none, none⟩
        (some [⟨[], ['X'], .multiPolygon
          [[[((0 : ℚ), (0 : ℚ)), ((1 : ℚ), (1 : ℚ))]],
           [[((2 : ℚ), (5 : ℚ)), ((3 : ℚ), (6 : ℚ)), ((4 : ℚ), (7 : ℚ))]]]⟩]) =
      (.ok [[((0 : ℚ), (0 : ℚ)), ((1 : ℚ), (1 : ℚ))]],
        some [⟨[], ['X'], .multiPolygon
          [[[((0 : ℚ), (0 : ℚ)), ((1 : ℚ), (1 : ℚ))]],
           [[((2 : ℚ), (5 : ℚ)), ((3 : ℚ), (6 : ℚ)), ((4 : ℚ), (7 : ℚ))]]]⟩])
    ∧ ([((0 : ℚ), (0 : ℚ)), ((1 : ℚ), (1 : ℚ))] : GeoRing).length <
        ([((2 : ℚ), (5 : ℚ)), ((3 : ℚ), (6 : ℚ)), ((4 : ℚ), (7 : ℚ))] : GeoRing).length
    ∧ ([[((0 : ℚ), (0 : ℚ)), ((1 : ℚ), (1 : ℚ))]] : RingList) ≠
        [[((5 : ℚ), (2 : ℚ)), ((6 : ℚ), (3 : ℚ)), ((7 : ℚ), (4 : ℚ))]] := by
  exact ⟨rfl, by decide, by decide⟩

/-- C8 amended: in the SGIS strategy a multi-polygon feature contributes
exactly one ring — the outer ring of the constituent polygon whose outer ring
has the most vertices (first among ties) — while in the local-shapefile
strategy a multi-polygon feature contributes all rings of its first
constituent polygon, regardless of size. -/
theorem multipolygon_ring_selection_amended
    (env : SgisEnv) (label : List Char) (cache : PolygonCache)
    (tk : List Char) (geo : GeoData) (admCd : List Char) (rest : List (List Char))
    (b1 : BoundData) (f : SgisFeature) (frest : List SgisFeature) (ps : List RingList)
    (env2 : ShpEnv) (zone : ZoneRec) (fs : List ShpFeature) (f0 : ShpFeature)
    (p1 : RingList) (prest : List RingList)
    (hmiss : cacheFind cache label = none)
    (htk : env.tokenRes = .ok tk)
    (hgeo : env.geocodeRes = .ok geo)
    (herr : geo.errCd = 0)
    (hdata : geo.resultdata = admCd :: rest)
    (hb1 : env.boundaryRes admCd (natToChars env.currentYear) = .ok b1)
    (hfeat : b1.features = f :: frest)
    (hgeom : f.geometry = .multiPolygon ps)
    (hne : ps ≠ [])
    (hall : ∀ p ∈ ps, p ≠ [] ∧ p.headD [] ≠ []) :
    (∃ poly ∈ ps, (∀ q ∈ ps, (q.headD []).length ≤ (poly.headD []).length) ∧
      (fetchLocalAdminPolygonSgis env label cache).1 =
        .ok ([sgisProjectRing env.proj4 (poly.headD [])],
          (label, [sgisProjectRing env.proj4 (poly.headD [])]) :: cache))
    ∧ (shpFindFeature fs (zone.adminCode.getD []) ((zone.adminCode.getD []).take 8)
          (extractDongName zone.mainTrarNm) = some f0 →
        f0.geometry = .multiPolygon (p1 :: prest) → 0 < p1.length →
        fetchLocalAdminPolygonShp env2 zone (some fs) =
          (catchEmptyPolygon (normalizeCoords env2.proj4 p1), some fs)) := by
  constructor
  · obtain ⟨c, hc, hcw, -, hbound⟩ :=
      pickMaxPoly_spec ps 0 [] (fun p hp => (hall p hp).1) rfl
    have hcps : c ∈ ps := by
      rcases hcw with rfl | h
      · obtain ⟨p0, pr, rfl⟩ := List.exists_cons_of_ne_nil hne
        have h1 := hbound p0 (List.mem_cons_self _ _)
        have h2 := (hall p0 (List.mem_cons_self _ _)).2
        exact absurd (List.length_eq_zero.mp (Nat.le_zero.mp h1)) h2
      · exact h
    obtain ⟨rc, crest, rfl⟩ := List.exists_cons_of_ne_nil ((hall c hcps).1)
    have hflen : ¬(b1.features.length = 0) := by rw [hfeat]; simp
    refine ⟨rc :: crest, hcps, hbound, ?_⟩
    simp [fetchLocalAdminPolygonSgis, hmiss, sgisBody, htk, hgeo, herr, hdata, hb1,
      hflen, sgisUseBound, hfeat, hgeom, hc]
  · intro hfind hgeom2 hlen
    have hlen2 : ¬(p1.length = 0) := by omega
    simp [fetchLocalAdminPolygonShp, shpAfterLoad, hfind, hgeom2, hlen2]

/-- Witness for the amended C8 on the local-shapefile side: a two-polygon
`MultiPolygon` contributes the first polygon's rings. -/
theorem multipolygon_ring_selection_amended_witness :
    fetchLocalAdminPolygonShp ⟨true, .ok none, none⟩
        ⟨String.toList "A B X", none, none, none⟩
        (some [⟨[], ['X'], .multiPolygon
          [[[((0 : ℚ), (0 : ℚ)), ((1 : ℚ), (1 : ℚ))]],
           [[((2 : ℚ), (5 : ℚ)), ((3 : ℚ), (6 : ℚ)), ((4 : ℚ), (7 : ℚ))]]]⟩]) =
      (.ok [[((0 : ℚ), (0 : ℚ)), ((1 : ℚ), (1 : ℚ))]],
        some [⟨[], ['X'], .multiPolygon
          [[[((0 : ℚ), (0 : ℚ)), ((1 : ℚ), (1 : ℚ))]],
           [[((2 : ℚ), (5 : ℚ)), ((3 : ℚ), (6 : ℚ)), ((4 : ℚ), (7 : ℚ))]]]⟩]) := by
  have h := (multipolygon_ring_selection_amended
    ⟨.ok [], .ok ⟨0, [['1']]⟩, fun _ _ => .ok ⟨[⟨.multiPolygon [[[((0 : ℚ), (0 : ℚ))]]]⟩]⟩,
      2025, none⟩ [] [] [] ⟨0, [['1']]⟩ ['1'] [] ⟨[⟨.multiPolygon [[[((0 : ℚ), (0 : ℚ))]]]⟩]⟩
    ⟨.multiPolygon [[[((0 : ℚ), (0 : ℚ))]]]⟩ [] [[[((0 : ℚ), (0 : ℚ))]]]
    ⟨true, .ok none, none⟩ ⟨String.toList "A B X", none, none, none⟩
    [⟨[], ['X'], .multiPolygon
      [[[((0 : ℚ), (0 : ℚ)), ((1 : ℚ), (1 : ℚ))]],
       [[((2 : ℚ), (5 : ℚ)), ((3 : ℚ), (6 : ℚ)), ((4 : ℚ), (7 : ℚ))]]]⟩]
    ⟨[], ['X'], .multiPolygon
      [[[((0 : ℚ), (0 : ℚ)), ((1 : ℚ), (1 : ℚ))]],
       [[((2 : ℚ), (5 : ℚ)), ((3 : ℚ), (6 : ℚ)), ((4 : ℚ), (7 : ℚ))]]]⟩
    [[((0 : ℚ), (0 : ℚ)), ((1 : ℚ), (1 : ℚ))]]
    [[[((2 : ℚ), (5 : ℚ)), ((3 : ℚ), (6 : ℚ)), ((4 : ℚ), (7 : ℚ))]]]
    rfl rfl rfl rfl rfl rfl rfl rfl (by decide) (by decide)).2 rfl rfl (by decide)
  rw [h]
  rfl

/-! ## `searchAdminDistrict` (src/services/api.ts lines 743–795) -/

structure MegaItem where
  ctprvnNm : List Char
  ctprvnCd : List Char

structure CtyItem where
  signguNm : List Char
  signguCd : List Char

structure AdmiItem where
  adongNm : List Char
  adongCd : List Char

/-- The `baroApi` responses: the province list, the city list per province
code, and the district list per city code (all `[]` on any fetch/parse
failure, as `fetchBaroApi` swallows errors). -/
structure AdminEnv where
  keyPresent : Bool
  mega : List MegaItem
  cty : List Char → List CtyItem
  admi : List Char → List AdmiItem

/-- `s.replace(/[0-9.]+|동$/g, "")`: every digit-or-dot character is removed,
and a trailing `동` (only in final position) is removed. -/
def stripNumsAndDong : List Char → List Char
  | [] => []
  | c :: rest =>
    if c.isDigit || c = '.' then stripNumsAndDong rest
    else if c = '동' ∧ rest = [] then []
    else c :: stripNumsAndDong rest

/-- JS `haystack.includes(needle)`: contiguous substring test. -/
def isSubstring (needle : List Char) : List Char → Bool
  | [] => needle.isEmpty
  | h :: t => needle.isPrefixOf (h :: t) || isSubstring needle t

/-- The district filter predicate: raw substring match of the hint, or
equality of the suffix-normalized forms when the normalized hint is
non-empty. -/
def hintMatches (dong : List Char) (d : AdmiItem) : Bool :=
  let cleanDong := jsTrim (stripNumsAndDong dong)
  isSubstring dong d.adongNm ||
    (0 < cleanDong.length && (jsTrim (stripNumsAndDong d.adongNm) == cleanDong))

/-- The `Zone` record built for an administrative district. -/
structure AdminZone where
  trarNo : List Char
  mainTrarNm : List Char
  ctprvnNm : List Char
  signguNm : List Char
  trarArea : List Char
  coords : List Char
  typeTag : List Char
  adminCode : List Char
  adminLevel : List Char

def mkAdminZone (sido : MegaItem) (sgg : CtyItem) (d : AdmiItem) : AdminZone :=
  { trarNo := d.adongCd
    mainTrarNm := sido.ctprvnNm ++ ' ' :: sgg.signguNm ++ ' ' :: d.adongNm
    ctprvnNm := sido.ctprvnNm
    signguNm := sgg.signguNm
    trarArea := String.toList "0"
    coords := []
    typeTag := String.toList "admin"
    adminCode := d.adongCd
    adminLevel := String.toList "adongCd" }

/-- `searchAdminDistrict` (v2): fuzzy bidirectional province and city lookup,
then the district list filtered by the hint with fallback to the full list. -/
def searchAdminDistrict (env : AdminEnv) (sido sigungu dong : List Char) :
    Except (List Char) (List AdminZone) :=
  if env.keyPresent = false then .error (String.toList "API Key Missing")
  else if sido.isEmpty then .error (String.toList "시/도 정보를 찾을 수 없습니다.")
  else
    match env.mega.find? (fun s => isSubstring sido s.ctprvnNm || isSubstring s.ctprvnNm sido) with
    | none => .error (String.toList "행정구역(시도)을 찾을 수 없습니다: " ++ sido)
    | some targetSido =>
      if sigungu.isEmpty then .error (String.toList "시군구 단위까지 정보가 필요합니다.")
      else
        match (env.cty targetSido.ctprvnCd).find?
            (fun s => isSubstring sigungu s.signguNm || isSubstring s.signguNm sigungu) with
        | none => .error (String.toList "행정구역(시군구)을 찾을 수 없습니다: " ++ sigungu)
        | some targetSigungu =>
          let dongs := env.admi targetSigungu.signguCd
          let filteredDongs :=
            if dong.isEmpty = false then
              let matchesList := dongs.filter (hintMatches dong)
              if 0 < matchesList.length then matchesList else dongs
            else dongs
          let adminZones := filteredDongs.map (mkAdminZone targetSido targetSigungu)
          if adminZones.length = 0 then
            .error (String.toList "해당 조건에 맞는 행정동을 찾을 수 없습니다.")
          else .ok adminZones

/-- C3: once the province and city resolve and the city has a non-empty
district list, a hint matching no district (by the code's substring or
suffix-normalized test) yields the full unfiltered district list, and an empty
hint yields the same full list. -/
theorem admin_district_hint_fallback (env : AdminEnv) (sido sigungu dong : List Char)
    (ts : MegaItem) (tg : CtyItem)
    (hkey : env.keyPresent = true)
    (hsido : sido.isEmpty = false)
    (hfind1 : env.mega.find?
      (fun s => isSubstring sido s.ctprvnNm || isSubstring s.ctprvnNm sido) = some ts)
    (hsgg : sigungu.isEmpty = false)
    (hfind2 : (env.cty ts.ctprvnCd).find?
      (fun s => isSubstring sigungu s.signguNm || isSubstring s.signguNm sigungu) = some tg)
    (hne : 0 < (env.admi tg.signguCd).length)
    (hnomatch : ∀ d ∈ env.admi tg.signguCd, hintMatches dong d = false) :
    searchAdminDistrict env sido sigungu dong =
      .ok ((env.admi tg.signguCd).map (mkAdminZone ts tg))
    ∧ searchAdminDistrict env sido sigungu [] =
      .ok ((env.admi tg.signguCd).map (mkAdminZone ts tg)) := by
  have hfilter : (env.admi tg.signguCd).filter (hintMatches dong) = [] := by
    apply List.filter_eq_nil.mpr
    intro d hd
    simp [hnomatch d hd]
  have hmaplen : ¬(((env.admi tg.signguCd).map (mkAdminZone ts tg)).length = 0) := by
    rw [List.length_map]
    omega
  have hlne : ¬(env.admi tg.signguCd = []) := by
    intro hc
    rw [hc] at hne
    simp at hne
  constructor
  · by_cases hdong : dong.isEmpty = false
    · simp [searchAdminDistrict, hkey, hsido, hfind1, hsgg, hfind2, hdong, hfilter,
        hmaplen, hlne]
    · simp only [Bool.not_eq_false] at hdong
      simp [searchAdminDistrict, hkey, hsido, hfind1, hsgg, hfind2, hdong, hmaplen, hlne]
  · simp [searchAdminDistrict, hkey, hsido, hfind1, hsgg, hfind2, hmaplen, hlne]

/-- Witness for C3: a city with two districts and a hint matching neither
returns both districts, as does the empty hint. -/
theorem admin_district_hint_fallback_witness :
    searchAdminDistrict
      ⟨true, [⟨String.toList "SEOUL", ['1']⟩],
        (fun _ => [⟨String.toList "GANGNAM", ['2']⟩]),
        (fun _ => [⟨String.toList "AA", ['3']⟩, ⟨String.toList "BB", ['4']⟩])⟩
      (String.toList "SEOUL") (String.toList "GANGNAM") (String.toList "ZZZ") =
      .ok [mkAdminZone ⟨String.toList "SEOUL", ['1']⟩ ⟨String.toList "GANGNAM", ['2']⟩
            ⟨String.toList "AA", ['3']⟩,
          mkAdminZone ⟨String.toList "SEOUL", ['1']⟩ ⟨String.toList "GANGNAM", ['2']⟩
            ⟨String.toList "BB", ['4']⟩] := by
  exact (admin_district_hint_fallback
    ⟨true, [⟨String.toList "SEOUL", ['1']⟩],
      (fun _ => [⟨String.toList "GANGNAM", ['2']⟩]),
      (fun _ => [⟨String.toList "AA", ['3']⟩, ⟨String.toList "BB", ['4']⟩])⟩
    (String.toList "SEOUL") (String.toList "GANGNAM") (String.toList "ZZZ")
    ⟨String.toList "SEOUL", ['1']⟩ ⟨String.toList "GANGNAM", ['2']⟩
    rfl rfl rfl rfl rfl (by decide) (by decide)).1

/-! ## `fetchStores` / `fetchStoresInAdmin` — v1 pagination
(src/services/api.ts lines 162–213 and 405–457)

The first page's parse result and each later page's usable item list are
environment fields; the `MAX_PAGES` constants (10 for the trade-zone query, 5
for the administrative query) silently cap the loop.  The third result
component records the pages requested. -/

structure FirstPage (S : Type) where
  stdrYm : Option (List Char)
  items : Option (S ⊕ List S)
  totalCount : Option Nat

inductive FirstParse (S : Type)
  | bad
  | parsed (fp : FirstPage S)

structure StoresEnv (S : Type) where
  keyPresent : Bool
  firstRes : Except (List Char) (FirstParse S)
  pageRes : Nat → Option (List S)

def normalizeStoreItems {S : Type} : S ⊕ List S → List S
  | .inl s => [s]
  | .inr l => l

/-- `allStores` after the first page (`[]` when the parse failed or `items`
was missing). -/
def firstItemsOf {S : Type} : FirstParse S → List S
  | .bad => []
  | .parsed fp =>
    match fp.items with
    | some its => normalizeStoreItems its
    | none => []

def firstStdrYm {S : Type} : FirstParse S → List Char
  | .bad => []
  | .parsed fp => fp.stdrYm.getD []

/-- `totalCount` after the first page: the provider field when truthy
(non-zero), else the first page's own item count; 0 when `items` is absent or
the parse failed. -/
def firstTotalCount {S : Type} : FirstParse S → Nat
  | .bad => 0
  | .parsed fp =>
    match fp.items with
    | none => 0
    | some its =>
      let n := fp.totalCount.getD 0
      if n ≠ 0 then n else (normalizeStoreItems its).length

/-- The sequential page loop: each page's usable items appended, failures
skipped. -/
def collectPages {S : Type} (pageRes : Nat → Option (List S)) : List Nat → List S
  | [] => []
  | i :: rest =>
    (match pageRes i with
     | some its => its
     | none => []) ++ collectPages pageRes rest

/-- The page numbers `2 … loopLimit` requested when `loopLimit > 1`. -/
def pageNums (loopLimit : Nat) : List Nat :=
  if 1 < loopLimit then List.range' 2 (loopLimit - 1) else []

/-- `fetchStores` (v1): `PAGE_SIZE = 500`, `MAX_PAGES = 10`,
`loopLimit = min(ceil(totalCount / 500), 10)`. -/
def fetchStores {S : Type} (env : StoresEnv S) :
    Except (List Char) (List S × List Char × List Nat) :=
  if env.keyPresent = false then .error (String.toList "API Key Missing")
  else
    match env.firstRes with
    | .error e => .error e
    | .ok fpr =>
      let allStores := firstItemsOf fpr
      let totalCount := firstTotalCount fpr
      let totalPages := (totalCount + 499) / 500
      let loopLimit := min totalPages 10
      let nums := pageNums loopLimit
      .ok (allStores ++ collectPages env.pageRes nums, firstStdrYm fpr, 1 :: nums)

/-- `fetchStoresInAdmin` (v1): identical shape with `MAX_PAGES = 5`. -/
def fetchStoresInAdmin {S : Type} (env : StoresEnv S) :
    Except (List Char) (List S × List Char × List Nat) :=
  if env.keyPresent = false then .error (String.toList "API Key Missing")
  else
    match env.firstRes with
    | .error e => .error e
    | .ok fpr =>
      let allStores := firstItemsOf fpr
      let totalCount := firstTotalCount fpr
      let totalPages := (totalCount + 499) / 500
      let loopLimit := min totalPages 5
      let nums := pageNums loopLimit
      .ok (allStores ++ collectPages env.pageRes nums, firstStdrYm fpr, 1 :: nums)

lemma collectPages_length_le {S : Type} (pageRes : Nat → Option (List S))
    (hp : ∀ i l, pageRes i = some l → l.length ≤ 500) :
    ∀ nums : List Nat, (collectPages pageRes nums).length ≤ 500 * nums.length
  | [] => by simp [collectPages]
  | i :: rest => by
    have ih := collectPages_length_le pageRes hp rest
    rcases hpi : pageRes i with _ | l
    · simp only [collectPages, hpi, List.length_append, List.length_cons, List.length_nil]
      omega
    · have hl := hp i l hpi
      simp only [collectPages, hpi, List.length_append, List.length_cons]
      omega

lemma pageNums_length_le (L : Nat) : (pageNums L).length ≤ L - 1 := by
  unfold pageNums
  split
  · simp [List.length_range']
  · simp

/-- C10: store-list pagination is silently capped — when every page carries at
most `PAGE_SIZE = 500` items, `fetchStores` requests at most 10 pages and
returns at most 5000 stores, `fetchStoresInAdmin` at most 5 pages and 2500
stores — and whatever the reported `totalCount`, a parsable first page always
yields an `ok` (never an error signalling truncation). -/
theorem store_pagination_caps {S : Type} (env : StoresEnv S)
    (hfirst : ∀ fpr, env.firstRes = .ok fpr → (firstItemsOf fpr).length ≤ 500)
    (hpages : ∀ i l, env.pageRes i = some l → l.length ≤ 500) :
    (∀ stores ym pages, fetchStores env = .ok (stores, ym, pages) →
        stores.length ≤ 5000 ∧ pages.length ≤ 10)
    ∧ (∀ stores ym pages, fetchStoresInAdmin env = .ok (stores, ym, pages) →
        stores.length ≤ 2500 ∧ pages.length ≤ 5)
    ∧ (env.keyPresent = true → ∀ fpr, env.firstRes = .ok fpr →
        (∃ out, fetchStores env = .ok out) ∧ (∃ out2, fetchStoresInAdmin env = .ok out2)) := by
  refine ⟨?_, ?_, ?_⟩
  · intro stores ym pages h
    by_cases hkey : env.keyPresent = false
    · simp [fetchStores, hkey] at h
    · rcases hfr : env.firstRes with e | fpr
      · simp [fetchStores, hkey, hfr] at h
      · simp only [fetchStores, hkey, Bool.false_eq_true, if_false, hfr] at h
        injection h with h2
        injection h2 with hs h3
        injection h3 with hy hpg
        have hnums : (pageNums (min ((firstTotalCount fpr + 499) / 500) 10)).length ≤ 9 := by
          have := pageNums_length_le (min ((firstTotalCount fpr + 499) / 500) 10)
          omega
        constructor
        · rw [← hs]
          have h1 := hfirst fpr hfr
          have h2 := collectPages_length_le env.pageRes hpages
            (pageNums (min ((firstTotalCount fpr + 499) / 500) 10))
          simp only [List.length_append]
          omega
        · rw [← hpg]
          simp only [List.length_cons]
          omega
  · intro stores ym pages h
    by_cases hkey : env.keyPresent = false
    · simp [fetchStoresInAdmin, hkey] at h
    · rcases hfr : env.firstRes with e | fpr
      · simp [fetchStoresInAdmin, hkey, hfr] at h
      · simp only [fetchStoresInAdmin, hkey, Bool.false_eq_true, if_false, hfr] at h
        injection h with h2
        injection h2 with hs h3
        injection h3 with hy hpg
        have hnums : (pageNums (min ((firstTotalCount fpr + 499) / 500) 5)).length ≤ 4 := by
          have := pageNums_length_le (min ((firstTotalCount fpr + 499) / 500) 5)
          omega
        constructor
        · rw [← hs]
          have h1 := hfirst fpr hfr
          have h2 := collectPages_length_le env.pageRes hpages
            (pageNums (min ((firstTotalCount fpr + 499) / 500) 5))
          simp only [List.length_append]
          omega
        · rw [← hpg]
          simp only [List.length_cons]
          omega
  · intro hkey fpr hfr
    constructor
    · exact ⟨(firstItemsOf fpr ++ collectPages env.pageRes
          (pageNums (min ((firstTotalCount fpr + 499) / 500) 10)), firstStdrYm fpr,
          1 :: pageNums (min ((firstTotalCount fpr + 499) / 500) 10)),
        by simp [fetchStores, hkey, hfr]⟩
    · exact ⟨(firstItemsOf fpr ++ collectPages env.pageRes
          (pageNums (min ((firstTotalCount fpr + 499) / 500) 5)), firstStdrYm fpr,
          1 :: pageNums (min ((firstTotalCount fpr + 499) / 500) 5)),
        by simp [fetchStoresInAdmin, hkey, hfr]⟩

/-- Witness for C10: a provider reporting `totalCount = 100000` (200 pages)
with full 500-item pages still yields an `ok` result within the caps. -/
theorem store_pagination_caps_witness :
    ∃ stores ym pages, fetchStores
        (⟨true, .ok (.parsed ⟨none, some (.inr (List.replicate 500 ())), some 100000⟩),
          fun _ => some (List.replicate 500 ())⟩ : StoresEnv Unit) = .ok (stores, ym, pages)
      ∧ stores.length ≤ 5000 ∧ pages.length ≤ 10 := by
  have h := store_pagination_caps
    (⟨true, .ok (.parsed ⟨none, some (.inr (List.replicate 500 ())), some 100000⟩),
      fun _ => some (List.replicate 500 ())⟩ : StoresEnv Unit)
    (by
      intro fpr hf
      injection hf with h2
      rw [← h2]
      show (List.replicate 500 ()).length ≤ 500
      rw [List.length_replicate])
    (by
      intro i l hl
      injection hl with h2
      rw [← h2]
      show (List.replicate 500 ()).length ≤ 500
      rw [List.length_replicate])
  obtain ⟨⟨out, hout⟩, -⟩ := h.2.2 rfl _ rfl
  exact ⟨out.1, out.2.1, out.2.2, hout, h.1 out.1 out.2.1 out.2.2 hout⟩
